import Mathlib

/-!
Verification of the session-state and credential-lifecycle engine of the
JARVIS MentraOS application (src/index.ts, src/services/gmailService.ts,
and the google calendar service).

The TypeScript sources are shallowly embedded below: per-user `Map`s become
total functions from user ids with an explicit default, in-place mutation
becomes state passing, `Date.now()` becomes an explicit `Nat` argument, and
every outbound network interaction (photo capture, Anthropic captioning,
Google token exchange / refresh, calendar and gmail API calls, Suno polling)
becomes an explicit outcome parameter of the function that performs it.
JavaScript string truthiness (`!!s`, `if (s) ...`) is embedded as
"present and non-empty".
-/

set_option maxRecDepth 4000

namespace Jarvis

/-! ## String utilities

JavaScript `String.prototype.includes`, embedded over character lists. -/

/-- Checks whether the pattern occurs as a contiguous run inside the haystack
(character-list form of JavaScript substring containment). -/
def containsSubAux (pat : List Char) : List Char → Bool
  | [] => pat.isEmpty
  | c :: rest => List.isPrefixOf pat (c :: rest) || containsSubAux pat rest

/-- Embeds JavaScript `s.includes(pat)`. -/
def strIncludes (s pat : String) : Bool :=
  containsSubAux pat.toList s.toList

/-- Embeds JavaScript character lowercasing, applied characterwise. -/
def jsToLower (s : String) : String :=
  String.mk (s.toList.map Char.toLower)

/-- Embeds JavaScript `trim`: whitespace stripped from both ends. -/
def jsTrim (s : String) : String :=
  String.mk (((s.toList.dropWhile Char.isWhitespace).reverse.dropWhile
    Char.isWhitespace).reverse)

/-- Embeds `data.text.toLowerCase().trim()` from the transcription handler. -/
def normalizeText (s : String) : String :=
  jsTrim (jsToLower s)

/-! ## Intent classifier (src/index.ts lines 125-171 and 221-291)

The fixed activation-phrase lists, copied verbatim from the source. -/

def PHOTO_ACTIVATION_PHRASES : List String :=
  ["take photo", "capture photo", "snap photo", "take picture",
   "capture picture", "snap picture", "camera", "photo"]

def SHOPPING_ACTIVATION_PHRASES : List String :=
  ["buy", "purchase", "order", "shopping"]

def CALENDAR_ACTIVATION_PHRASES : List String :=
  ["schedule", "meeting", "calendar", "appointment", "book", "plan",
   "create event", "add to calendar"]

def EMAIL_ACTIVATION_PHRASES : List String :=
  ["email", "reply", "send email", "compose", "check email", "inbox",
   "message"]

/-- Embeds `PHOTO_ACTIVATION_PHRASES.some(phrase => spokenText.includes(phrase))`. -/
def photoActivationDetected (spokenText : String) : Bool :=
  PHOTO_ACTIVATION_PHRASES.any (fun phrase => strIncludes spokenText phrase)

/-- Embeds the shopping-phrase detection from the transcription handler. -/
def shoppingActivationDetected (spokenText : String) : Bool :=
  SHOPPING_ACTIVATION_PHRASES.any (fun phrase => strIncludes spokenText phrase)

/-- Embeds the calendar-phrase detection from the transcription handler. -/
def calendarActivationDetected (spokenText : String) : Bool :=
  CALENDAR_ACTIVATION_PHRASES.any (fun phrase => strIncludes spokenText phrase)

/-- Embeds the email-phrase detection from the transcription handler. -/
def emailActivationDetected (spokenText : String) : Bool :=
  EMAIL_ACTIVATION_PHRASES.any (fun phrase => strIncludes spokenText phrase)

/-- The category an utterance is dispatched to by the `onTranscription`
handler's if / else-if chain. -/
inductive Intent where
  | photo
  | shopping
  | calendar
  | email
  | noIntent
deriving DecidableEq, Repr

/-- Embeds the if / else-if dispatch chain of the `onTranscription` handler
applied to already-normalized text: photo is checked first, then shopping,
then calendar, then email. -/
def classifyNormalized (spokenText : String) : Intent :=
  if photoActivationDetected spokenText then Intent.photo
  else if shoppingActivationDetected spokenText then Intent.shopping
  else if calendarActivationDetected spokenText then Intent.calendar
  else if emailActivationDetected spokenText then Intent.email
  else Intent.noIntent

/-- The full classification of a raw utterance: normalization followed by the
dispatch chain, exactly as in the handler. -/
def classifyUtterance (text : String) : Intent :=
  classifyNormalized (normalizeText text)

/-! ## Bounded per-user stores (src/index.ts)

All three galleries follow the same shape: `array.push(item)` followed by
`if (array.length > CAP) array.shift()`. -/

/-- Embeds `push` followed by the capacity check: append at the tail, and when
the new length exceeds the capacity remove the head. -/
def pushCap {α : Type} (cap : Nat) (l : List α) (x : α) : List α :=
  let l2 := l ++ [x]
  if cap < l2.length then l2.tail else l2

/-- Raw photo data delivered by `session.camera.requestPhoto()`. -/
structure PhotoData where
  requestId : String
  buffer : String
  timestamp : Nat
  mimeType : String
  filename : String
  size : Nat
deriving DecidableEq, Repr

/-- Embeds the `StoredPhoto` interface of src/index.ts. -/
structure StoredPhoto where
  requestId : String
  buffer : String
  timestamp : Nat
  userId : String
  mimeType : String
  filename : String
  size : Nat
  selected : Bool
  caption : Option String
  captionGenerated : Bool
deriving DecidableEq, Repr

/-- Embeds the `storedPhoto` record literal built in `addPhotoToGallery`. -/
def mkStoredPhoto (photo : PhotoData) (userId : String) : StoredPhoto :=
  { requestId := photo.requestId
    buffer := photo.buffer
    timestamp := photo.timestamp
    userId := userId
    mimeType := photo.mimeType
    filename := photo.filename
    size := photo.size
    selected := false
    caption := none
    captionGenerated := false }

/-- Embeds `addPhotoToGallery` (src/index.ts lines 1105-1135): the per-user
`photoGalleries` map with a 50-photo cap.  The asynchronous caption pipeline
that the source kicks off afterwards mutates the stored photo and is embedded
separately by `generateCaptionAsync` below. -/
def addPhotoToGallery (galleries : String → List StoredPhoto) (photo : PhotoData)
    (userId : String) : String → List StoredPhoto :=
  fun u => if u = userId then pushCap 50 (galleries u) (mkStoredPhoto photo userId)
           else galleries u

/-- Embeds the `TranscriptionEntry` interface of src/index.ts. -/
structure TranscriptionEntry where
  id : String
  text : String
  timestamp : Nat
  userId : String
  isActivationPhrase : Bool
  selected : Bool
deriving DecidableEq, Repr

/-- Embeds the entry literal built in `addTranscriptionToHistory`; `now` is
`Date.now()` and `rand` the random id suffix. -/
def mkTranscriptionEntry (userId text : String) (isActivationPhrase : Bool)
    (now : Nat) (rand : String) : TranscriptionEntry :=
  { id := "transcription-" ++ toString now ++ "-" ++ rand
    text := text
    timestamp := now
    userId := userId
    isActivationPhrase := isActivationPhrase
    selected := false }

/-- Embeds `addTranscriptionToHistory` (src/index.ts lines 356-379): the
per-user `transcriptionHistory` map with a 100-entry cap. -/
def addTranscriptionToHistory (hist : String → List TranscriptionEntry)
    (userId text : String) (isActivationPhrase : Bool) (now : Nat) (rand : String) :
    String → List TranscriptionEntry :=
  fun u =>
    if u = userId then
      pushCap 100 (hist u) (mkTranscriptionEntry userId text isActivationPhrase now rand)
    else hist u

/-- Embeds the `GeneratedSong` interface of src/index.ts; `metadata` has
TypeScript type `any` and is embedded as a string whose JavaScript truthiness
is non-emptiness. -/
structure GeneratedSong where
  id : String
  clipId : String
  title : String
  status : String
  audioUrl : Option String
  imageUrl : Option String
  createdAt : Nat
  completedAt : Option Nat
  userId : String
  prompt : String
  tags : String
  selectedPhotosCount : Nat
  selectedTranscriptionsCount : Nat
  metadata : String
  favorite : Bool
deriving DecidableEq, Repr

/-- The song-tracking state: the per-user `songGalleries` map and the
`activeGenerations` clipId-to-user map. -/
structure SongState where
  songGalleries : String → List GeneratedSong
  activeGenerations : String → Option String

/-- Embeds the song literal built in `addSongToGallery`; the source
initializes `metadata` to the empty object, embedded as the empty string. -/
def mkGeneratedSong (userId clipId prompt tags : String)
    (selectedPhotosCount selectedTranscriptionsCount : Nat)
    (now : Nat) (rand : String) : GeneratedSong :=
  { id := "song-" ++ toString now ++ "-" ++ rand
    clipId := clipId
    title := ""
    status := "submitted"
    audioUrl := none
    imageUrl := none
    createdAt := now
    completedAt := none
    userId := userId
    prompt := prompt
    tags := tags
    selectedPhotosCount := selectedPhotosCount
    selectedTranscriptionsCount := selectedTranscriptionsCount
    metadata := ""
    favorite := false }

/-- Embeds `addSongToGallery` (src/index.ts lines 1164-1200): append to the
25-song gallery and register the clipId with `activeGenerations`. -/
def addSongToGallery (st : SongState) (userId clipId prompt tags : String)
    (selectedPhotosCount selectedTranscriptionsCount : Nat)
    (now : Nat) (rand : String) : SongState :=
  let song := mkGeneratedSong userId clipId prompt tags
      selectedPhotosCount selectedTranscriptionsCount now rand
  { songGalleries := fun u =>
      if u = userId then pushCap 25 (st.songGalleries u) song else st.songGalleries u
    activeGenerations := fun c =>
      if c = clipId then some userId else st.activeGenerations c }

/-- Runs a sequence of photo captures for one user through the gallery map. -/
def runPhotoAppends (g : String → List StoredPhoto) (u : String)
    (ps : List PhotoData) : String → List StoredPhoto :=
  ps.foldl (fun g p => addPhotoToGallery g p u) g

/-- Runs a sequence of finalized transcriptions (text, flag, now, rand) for
one user through the history map. -/
def runTranscriptionAppends (h : String → List TranscriptionEntry) (u : String)
    (items : List (String × Bool × Nat × String)) : String → List TranscriptionEntry :=
  items.foldl (fun h i => addTranscriptionToHistory h u i.1 i.2.1 i.2.2.1 i.2.2.2) h

/-- Runs a sequence of song submissions (clipId, prompt, tags, counts, now,
rand) for one user through the song state. -/
def runSongAppends (st : SongState) (u : String)
    (items : List (String × String × String × Nat × Nat × Nat × String)) : SongState :=
  items.foldl
    (fun st i =>
      addSongToGallery st u i.1 i.2.1 i.2.2.1 i.2.2.2.1 i.2.2.2.2.1
        i.2.2.2.2.2.1 i.2.2.2.2.2.2)
    st

/-- Fixed sample photo used by concrete witnesses. -/
def samplePhoto : PhotoData :=
  { requestId := "req-1", buffer := "bytes", timestamp := 7,
    mimeType := "image/jpeg", filename := "photo.jpg", size := 5 }

/-! ## Generation tracker (src/index.ts lines 1205-1227) -/

/-- Embeds JavaScript truthiness of an optional string argument: absent,
or present but empty, is falsy. -/
def jsTruthy (s : Option String) : Bool :=
  match s with
  | none => false
  | some v => !v.isEmpty

/-- Rewrites the first element satisfying the predicate, embedding
`gallery.find(...)` followed by in-place mutation of the found object. -/
def updateFirst {α : Type} (p : α → Bool) (f : α → α) : List α → List α
  | [] => []
  | x :: xs => if p x then f x :: xs else x :: updateFirst p f xs

/-- Embeds the field mutations of `updateSongInGallery`: `song.status` is
always overwritten, the four optional arguments overwrite only when truthy,
and `completedAt` is stamped exactly when the new status is complete. -/
def applySongFields (song : GeneratedSong) (now : Nat) (status : String)
    (title audioUrl imageUrl metadata : Option String) : GeneratedSong :=
  { song with
    status := status
    title := match title with
      | some t => if t.isEmpty then song.title else t
      | none => song.title
    audioUrl := match audioUrl with
      | some a => if a.isEmpty then song.audioUrl else some a
      | none => song.audioUrl
    imageUrl := match imageUrl with
      | some i => if i.isEmpty then song.imageUrl else some i
      | none => song.imageUrl
    metadata := match metadata with
      | some m => if m.isEmpty then song.metadata else m
      | none => song.metadata
    completedAt := if status = "complete" then some now else song.completedAt }

/-- Embeds `updateSongInGallery` (src/index.ts lines 1205-1227): look up the
owner through `activeGenerations`, mutate the first song with the matching
clipId, and on a complete status stamp `completedAt` and delete the
clipId-to-user mapping. -/
def updateSongInGallery (st : SongState) (now : Nat) (clipId status : String)
    (title audioUrl imageUrl metadata : Option String) : SongState :=
  match st.activeGenerations clipId with
  | none => st
  | some userId =>
    match (st.songGalleries userId).find? (fun s => s.clipId == clipId) with
    | none => st
    | some _ =>
      { songGalleries := fun u =>
          if u = userId then
            updateFirst (fun s => s.clipId == clipId)
              (fun s => applySongFields s now status title audioUrl imageUrl metadata)
              (st.songGalleries userId)
          else st.songGalleries u
        activeGenerations := fun c =>
          if status = "complete" then
            if c = clipId then none else st.activeGenerations c
          else st.activeGenerations c }

/-- Fixed sample song used by concrete witnesses. -/
def sampleSong : GeneratedSong :=
  mkGeneratedSong "alice" "clip-1" "a prompt" "pop" 1 2 7 "r"

/-- Fixed sample tracker state with one registered job, used by witnesses. -/
def sampleSongState : SongState :=
  { songGalleries := fun u => if u = "alice" then [sampleSong] else []
    activeGenerations := fun c => if c = "clip-1" then some "alice" else none }

/-! ## Capture scheduler (src/index.ts lines 313-329)

One user's scheduler flags: `isStreamingPhotos.get(userId)` and
`nextPhotoTime.get(userId)`. -/

/-- The per-user scheduler flags. -/
structure SchedState where
  streaming : Bool
  nextPhotoTime : Nat
deriving DecidableEq, Repr

/-- Embeds the tick guard
`isStreamingPhotos.get(userId) && Date.now() > nextPhotoTime.get(userId)`. -/
def tickStartsCapture (st : SchedState) (now : Nat) : Bool :=
  st.streaming && decide (st.nextPhotoTime < now)

/-- Embeds one 1-second tick of the `setInterval` loop while the in-flight
capture stalls (the `await` never resolves): when the tick is due it records
one capture attempt at `now` and installs the 30-second fallback deadline
`nextPhotoTime = now + 30000`; otherwise nothing happens. -/
def tickStalled (st : SchedState) (now : Nat) : SchedState × Option Nat :=
  if tickStartsCapture st now then
    ({ st with nextPhotoTime := now + 30000 }, some now)
  else (st, none)

/-- Embeds the post-await reset `nextPhotoTime.set(userId, Date.now())` that
runs when a capture completes (successfully or with a handled failure) at
time `doneAt`. -/
def captureDone (st : SchedState) (doneAt : Nat) : SchedState :=
  { st with nextPhotoTime := doneAt }

/-- Runs the stalled scheduler over a list of tick times, returning the final
flags and the times at which capture attempts were started. -/
def stallRun : SchedState → List Nat → SchedState × List Nat
  | st, [] => (st, [])
  | st, t :: ts =>
    let step := tickStalled st t
    let rest := stallRun step.1 ts
    (rest.1, step.2.toList ++ rest.2)

/-! ## Caption pipeline (src/index.ts lines 504-541 and 1140-1151)

`generatePhotoCaption` returns null when the Anthropic client is not
configured, on an API error, or when the response content is not text;
`apiResult` is the outcome of the Anthropic call when one is made. -/

/-- Embeds `generatePhotoCaption`: when the Anthropic client is absent the
call is skipped and null is returned; otherwise the API outcome (a caption,
or null on error / non-text content) is returned. -/
def generatePhotoCaption (anthropicConfigured : Bool)
    (apiResult : Option String) : Option String :=
  if !anthropicConfigured then none else apiResult

/-- Embeds `generateCaptionAsync`: the stored photo is mutated in place with
`caption = caption || undefined` and `captionGenerated = true` (the catch
branch also sets the flag, so the flag is set on every path). -/
def generateCaptionAsync (anthropicConfigured : Bool) (apiResult : Option String)
    (storedPhoto : StoredPhoto) : StoredPhoto :=
  let caption := generatePhotoCaption anthropicConfigured apiResult
  { storedPhoto with
    caption := match caption with
      | some c => if c.isEmpty then none else some c
      | none => none
    captionGenerated := true }

/-! ## Transcription handler (src/index.ts lines 216-292)

The handler's observable behavior is embedded as the updated history map
together with an ordered trace of its effects. -/

/-- An utterance event as delivered by `session.events.onTranscription`. -/
structure TranscriptionEvent where
  text : String
  isFinal : Bool
deriving DecidableEq, Repr

/-- The action the handler dispatches after recording the utterance. -/
inductive DispatchAction where
  | takePhoto
  | shoppingRequest
  | calendarRequest
  | emailRequest
deriving DecidableEq, Repr

/-- One observable step of the transcription handler, in execution order. -/
inductive TraceItem where
  | record (entry : TranscriptionEntry)
  | dispatch (action : DispatchAction)
deriving DecidableEq, Repr

/-- Checks whether a trace item is a history recording. -/
def TraceItem.isRecord : TraceItem → Bool
  | TraceItem.record _ => true
  | TraceItem.dispatch _ => false

/-- Embeds the body of the `onTranscription` handler: non-final events return
immediately; a final event is normalized, classified against all four phrase
lists, recorded in the history with the any-match activation flag, and then
dispatched through the if / else-if chain. The returned trace lists the
handler's effects in source order. -/
def handleTranscription (hist : String → List TranscriptionEntry) (userId : String)
    (ev : TranscriptionEvent) (now : Nat) (rand : String) :
    (String → List TranscriptionEntry) × List TraceItem :=
  if !ev.isFinal then (hist, [])
  else
    let spokenText := normalizeText ev.text
    let photoD := photoActivationDetected spokenText
    let shoppingD := shoppingActivationDetected spokenText
    let calendarD := calendarActivationDetected spokenText
    let emailD := emailActivationDetected spokenText
    let anyD := photoD || shoppingD || calendarD || emailD
    let hist2 := addTranscriptionToHistory hist userId ev.text anyD now rand
    let actions : List TraceItem :=
      if photoD then [TraceItem.dispatch DispatchAction.takePhoto]
      else if shoppingD then [TraceItem.dispatch DispatchAction.shoppingRequest]
      else if calendarD then [TraceItem.dispatch DispatchAction.calendarRequest]
      else if emailD then [TraceItem.dispatch DispatchAction.emailRequest]
      else []
    (hist2, TraceItem.record (mkTranscriptionEntry userId ev.text anyD now rand) :: actions)

/-! ## OAuth token vault (calendar service and src/services/gmailService.ts)

The live calendar service is the variant whose `handleAuthCallback` shares
the exchanged tokens with the gmail service (`index.ts` calls its
`getAuthorizedUsers`, which only that variant defines). Each façade keeps its
own `userTokens` map; both maps are embedded in one `VaultState`. -/

/-- Embeds a google OAuth2 token set. -/
structure TokenSet where
  accessToken : Option String
  refreshToken : Option String
  expiryDate : Option Nat
  scope : Option String
deriving DecidableEq, Repr

/-- The two per-user token maps: `GoogleCalendarService.userTokens` and
`GmailService.userTokens`. -/
structure VaultState where
  calTokens : String → Option TokenSet
  gmailTokens : String → Option TokenSet

/-- Embeds `GoogleCalendarService.handleAuthCallback`: when OAuth client
credentials are absent, or the code exchange fails or yields no tokens, it
returns false and stores nothing; on success it stores the exchanged set in
the calendar map and shares the identical set with the gmail service via
`gmailService.storeUserTokens`. -/
def handleAuthCallback (st : VaultState) (oauthConfigured : Bool)
    (exchangeResult : Option TokenSet) (userId : String) : Bool × VaultState :=
  if !oauthConfigured then (false, st)
  else
    match exchangeResult with
    | none => (false, st)
    | some tokens =>
      (true,
        { calTokens := fun v => if v = userId then some tokens else st.calTokens v
          gmailTokens := fun v => if v = userId then some tokens else st.gmailTokens v })

/-- Embeds `GoogleCalendarService.isUserAuthorized`:
`!!tokens && !!tokens.access_token`. -/
def calIsUserAuthorized (st : VaultState) (userId : String) : Bool :=
  match st.calTokens userId with
  | none => false
  | some tokens => jsTruthy tokens.accessToken

/-- Embeds `GmailService.isUserAuthorized`. -/
def gmailIsUserAuthorized (st : VaultState) (userId : String) : Bool :=
  match st.gmailTokens userId with
  | none => false
  | some tokens => jsTruthy tokens.accessToken

/-- Embeds `GoogleCalendarService.refreshUserToken`: fails when no token set
or no truthy refresh token is stored, or when the provider rejects the
refresh (`providerResult = none`); on success it replaces the calendar map
entry with the fresh credentials. It never touches the gmail map. -/
def calRefreshUserToken (st : VaultState) (userId : String)
    (providerResult : Option TokenSet) : Bool × VaultState :=
  match st.calTokens userId with
  | none => (false, st)
  | some tokens =>
    if !jsTruthy tokens.refreshToken then (false, st)
    else
      match providerResult with
      | none => (false, st)
      | some credentials =>
        (true,
          { st with
            calTokens := fun v => if v = userId then some credentials
                                  else st.calTokens v })

/-- Embeds `GmailService.refreshUserToken`, identical in shape to the
calendar one but updating only the gmail map. -/
def gmailRefreshUserToken (st : VaultState) (userId : String)
    (providerResult : Option TokenSet) : Bool × VaultState :=
  match st.gmailTokens userId with
  | none => (false, st)
  | some tokens =>
    if !jsTruthy tokens.refreshToken then (false, st)
    else
      match providerResult with
      | none => (false, st)
      | some credentials =>
        (true,
          { st with
            gmailTokens := fun v => if v = userId then some credentials
                                    else st.gmailTokens v })

/-- Token set stored for the witnesses before a refresh. -/
def sampleTokenA : TokenSet :=
  { accessToken := some "access-a", refreshToken := some "refresh-1",
    expiryDate := some 100, scope := some "calendar gmail" }

/-- Fresh token set returned by the provider on a successful refresh. -/
def sampleTokenB : TokenSet :=
  { accessToken := some "access-b", refreshToken := some "refresh-1",
    expiryDate := some 200, scope := some "calendar gmail" }

/-- Concrete vault in which both façades hold the same token set for alice,
as left behind by `handleAuthCallback`. -/
def sampleVault : VaultState :=
  { calTokens := fun u => if u = "alice" then some sampleTokenA else none
    gmailTokens := fun u => if u = "alice" then some sampleTokenA else none }

/-! ## Refresh-and-retry on authorization expiry

`getEvents`, `createEvent`, `getRecentEmails` and `sendEmail` share the same
catch block: on a 401 they call `refreshUserToken` and, when it succeeds,
re-enter the same method recursively; any other error, or a failed refresh,
yields the empty result. An execution is embedded as the list of outcomes of
the successive API attempts, each paired with the outcome a refresh would
have (no stored refresh token and provider rejection both embed as false). -/

/-- Outcome of one outbound API attempt. -/
inductive CallOutcome (α : Type) where
  | ok (v : α)
  | authExpired
  | otherFailure
deriving DecidableEq, Repr

/-- Embeds the shared try/catch + refresh + recursive-retry shape of the four
façade calls. Returns the caller-visible result, the number of API attempts
made (retries = attempts - 1) and the number of refresh attempts made. -/
def withAuthRetry {α : Type} (emptyRes : α) :
    List (CallOutcome α × Bool) → α × Nat × Nat
  | [] => (emptyRes, 0, 0)
  | (CallOutcome.ok v, _) :: _ => (v, 1, 0)
  | (CallOutcome.otherFailure, _) :: _ => (emptyRes, 1, 0)
  | (CallOutcome.authExpired, refreshOk) :: rest =>
    if refreshOk then
      let r := withAuthRetry emptyRes rest
      (r.1, r.2.1 + 1, r.2.2 + 1)
    else (emptyRes, 1, 1)

/-- Embeds `GoogleCalendarService.getEvents` (the catch block; events are
abstracted to strings) — empty result is the empty list. -/
def getEventsRetry (attempts : List (CallOutcome (List String) × Bool)) :
    List String × Nat × Nat :=
  withAuthRetry [] attempts

/-- Embeds `GoogleCalendarService.createEvent` — empty result is null. -/
def createEventRetry (attempts : List (CallOutcome (Option String) × Bool)) :
    Option String × Nat × Nat :=
  withAuthRetry none attempts

/-- Embeds `GmailService.getRecentEmails` — empty result is the empty list. -/
def getRecentEmailsRetry (attempts : List (CallOutcome (List String) × Bool)) :
    List String × Nat × Nat :=
  withAuthRetry [] attempts

/-- Embeds `GmailService.sendEmail` — empty result is false. -/
def sendEmailRetry (attempts : List (CallOutcome Bool × Bool)) :
    Bool × Nat × Nat :=
  withAuthRetry false attempts


/-! ## Theorems -/

theorem pushCap_foldl {α : Type} (cap : Nat) :
    ∀ (xs l : List α), l.length ≤ cap →
      xs.foldl (pushCap cap) l = (l ++ xs).drop (l.length + xs.length - cap)
  | [], l, h => by
    simp [List.foldl, Nat.sub_eq_zero_of_le h]
  | x :: xs, l, h => by
    rw [List.foldl_cons]
    by_cases h1 : l.length < cap
    · have hstep : pushCap cap l x = l ++ [x] := by
        simp only [pushCap, List.length_append, List.length_cons]
        rw [if_neg (by simpa using h1)]
      rw [hstep, pushCap_foldl cap xs (l ++ [x]) (by simpa using h1)]
      have harith : (l ++ [x]).length + xs.length - cap
          = l.length + (x :: xs).length - cap := by
        simp; omega
      rw [harith, List.append_assoc]
      simp
    · have hcap : l.length = cap := by omega
      rcases l with _ | ⟨y, t⟩
      · have hc0 : cap = 0 := by simpa using hcap.symm
        subst hc0
        have hstep : pushCap 0 ([] : List α) x = [] := by
          simp [pushCap]
        rw [hstep, pushCap_foldl 0 xs [] (by simp)]
        simp
      · have hlen : t.length + 1 = cap := by simpa using hcap
        have hstep : pushCap cap (y :: t) x = t ++ [x] := by
          simp only [pushCap, List.cons_append, List.length_cons, List.length_append]
          rw [if_pos (by simp; omega)]
          rfl
        rw [hstep, pushCap_foldl cap xs (t ++ [x]) (by simp; omega)]
        have harith : (t ++ [x]).length + xs.length - cap = xs.length := by
          simp; omega
        have harith2 : (y :: t).length + (x :: xs).length - cap = xs.length + 1 := by
          simp; omega
        rw [harith, harith2]
        simp [List.append_assoc]

theorem runPhotoAppends_apply :
    ∀ (ps : List PhotoData) (g : String → List StoredPhoto) (u : String),
      runPhotoAppends g u ps u
        = (ps.map (fun p => mkStoredPhoto p u)).foldl (pushCap 50) (g u)
  | [], g, u => rfl
  | p :: ps, g, u => by
    show runPhotoAppends (addPhotoToGallery g p u) u ps u = _
    rw [runPhotoAppends_apply ps _ u]
    simp [addPhotoToGallery]

theorem runTranscriptionAppends_apply :
    ∀ (items : List (String × Bool × Nat × String))
      (h : String → List TranscriptionEntry) (u : String),
      runTranscriptionAppends h u items u
        = (items.map (fun i => mkTranscriptionEntry u i.1 i.2.1 i.2.2.1 i.2.2.2)).foldl
            (pushCap 100) (h u)
  | [], h, u => rfl
  | i :: items, h, u => by
    show runTranscriptionAppends (addTranscriptionToHistory h u i.1 i.2.1 i.2.2.1 i.2.2.2)
      u items u = _
    rw [runTranscriptionAppends_apply items _ u]
    simp [addTranscriptionToHistory]

theorem runSongAppends_apply :
    ∀ (items : List (String × String × String × Nat × Nat × Nat × String))
      (st : SongState) (u : String),
      (runSongAppends st u items).songGalleries u
        = (items.map (fun i =>
            mkGeneratedSong u i.1 i.2.1 i.2.2.1 i.2.2.2.1 i.2.2.2.2.1
              i.2.2.2.2.2.1 i.2.2.2.2.2.2)).foldl
            (pushCap 25) (st.songGalleries u)
  | [], st, u => rfl
  | i :: items, st, u => by
    show (runSongAppends
        (addSongToGallery st u i.1 i.2.1 i.2.2.1 i.2.2.2.1 i.2.2.2.2.1
          i.2.2.2.2.2.1 i.2.2.2.2.2.2) u items).songGalleries u = _
    rw [runSongAppends_apply items _ u]
    simp [addSongToGallery]

/-- C1: after any sequence of appends for a user starting from that user's
empty store, the photo gallery (cap 50), transcription history (cap 100) and
song gallery (cap 25) contain exactly the last min(N, length) appended items
in insertion order (`drop (length - N)`); a single append below capacity only
appends, an append at capacity removes exactly the oldest item, and the size
never exceeds the capacity (appends are total functions and never fail). -/
theorem bounded_fifo_stores :
    (∀ (g : String → List StoredPhoto) (u : String) (ps : List PhotoData),
        g u = [] →
        runPhotoAppends g u ps u
          = (ps.map (fun p => mkStoredPhoto p u)).drop (ps.length - 50))
    ∧ (∀ (h : String → List TranscriptionEntry) (u : String)
          (items : List (String × Bool × Nat × String)),
        h u = [] →
        runTranscriptionAppends h u items u
          = (items.map (fun i => mkTranscriptionEntry u i.1 i.2.1 i.2.2.1 i.2.2.2)).drop
              (items.length - 100))
    ∧ (∀ (st : SongState) (u : String)
          (items : List (String × String × String × Nat × Nat × Nat × String)),
        st.songGalleries u = [] →
        (runSongAppends st u items).songGalleries u
          = (items.map (fun i =>
              mkGeneratedSong u i.1 i.2.1 i.2.2.1 i.2.2.2.1 i.2.2.2.2.1
                i.2.2.2.2.2.1 i.2.2.2.2.2.2)).drop (items.length - 25))
    ∧ (∀ (α : Type) (cap : Nat) (l : List α) (x : α),
        l.length < cap → pushCap cap l x = l ++ [x])
    ∧ (∀ (α : Type) (cap : Nat) (l : List α) (x : α),
        l.length = cap → 0 < cap → pushCap cap l x = l.tail ++ [x])
    ∧ (∀ (α : Type) (cap : Nat) (l : List α) (x : α),
        l.length ≤ cap → (pushCap cap l x).length ≤ cap) := by
  refine ⟨?_, ?_, ?_, ?_, ?_, ?_⟩
  · intro g u ps hg
    rw [runPhotoAppends_apply, hg, pushCap_foldl 50 _ [] (by simp)]
    simp
  · intro h u items hh
    rw [runTranscriptionAppends_apply, hh, pushCap_foldl 100 _ [] (by simp)]
    simp
  · intro st u items hs
    rw [runSongAppends_apply, hs, pushCap_foldl 25 _ [] (by simp)]
    simp
  · intro α cap l x hlt
    simp only [pushCap, List.length_append, List.length_cons]
    rw [if_neg (by simp; omega)]
  · intro α cap l x hlen hpos
    rcases l with _ | ⟨y, t⟩
    · simp at hlen; omega
    · simp only [pushCap, List.cons_append, List.length_cons, List.length_append]
      rw [if_pos (by simp at hlen ⊢; omega)]
      rfl
  · intro α cap l x hle
    simp only [pushCap]
    by_cases hc : cap < (l ++ [x]).length
    · rw [if_pos hc]
      simp at hc ⊢
      omega
    · rw [if_neg hc]
      simp at hc ⊢
      omega

/-- Witness for C1: the FIFO law evaluated on concrete one-element inputs for
each of the three stores, plus the step facts at capacity 2-style toy lists of
the concrete capacities. -/
theorem bounded_fifo_stores_witness :
    runPhotoAppends (fun _ => []) "alice" [samplePhoto] "alice"
        = [mkStoredPhoto samplePhoto "alice"]
    ∧ runTranscriptionAppends (fun _ => []) "alice" [("take photo", true, 7, "r")] "alice"
        = [mkTranscriptionEntry "alice" "take photo" true 7 "r"]
    ∧ (runSongAppends ⟨fun _ => [], fun _ => none⟩ "alice"
        [("clip-1", "prompt", "tags", 1, 2, 7, "r")]).songGalleries "alice"
        = [mkGeneratedSong "alice" "clip-1" "prompt" "tags" 1 2 7 "r"]
    ∧ pushCap 50 ([] : List Nat) 3 = [3]
    ∧ pushCap 2 [1, 2] 3 = [2, 3]
    ∧ (pushCap 2 [1, 2] 3).length ≤ 2 := by
  refine ⟨?_, ?_, ?_, ?_, ?_, ?_⟩
  · have h := bounded_fifo_stores.1 (fun _ => []) "alice" [samplePhoto] rfl
    simpa using h
  · have h := bounded_fifo_stores.2.1 (fun _ => []) "alice"
      [("take photo", true, 7, "r")] rfl
    simpa using h
  · have h := bounded_fifo_stores.2.2.1 ⟨fun _ => [], fun _ => none⟩ "alice"
      [("clip-1", "prompt", "tags", 1, 2, 7, "r")] rfl
    simpa using h
  · exact bounded_fifo_stores.2.2.2.1 Nat 50 [] 3 (by decide)
  · exact bounded_fifo_stores.2.2.2.2.1 Nat 2 [1, 2] 3 (by decide) (by decide)
  · exact bounded_fifo_stores.2.2.2.2.2 Nat 2 [1, 2] 3 (by decide)

theorem updateFirst_decomp {α : Type} (p : α → Bool) (f : α → α) :
    ∀ (l : List α) (x : α), l.find? p = some x →
      ∃ pre post, l = pre ++ x :: post ∧ (∀ y ∈ pre, p y = false)
        ∧ updateFirst p f l = pre ++ f x :: post
  | [], x, h => by simp at h
  | z :: zs, x, h => by
    by_cases hz : p z
    · rw [List.find?_cons_of_pos _ hz] at h
      have hzx : z = x := Option.some.inj h
      subst hzx
      exact ⟨[], zs, by simp, by simp, by simp [updateFirst, hz]⟩
    · rw [List.find?_cons_of_neg _ hz] at h
      obtain ⟨pre, post, heq, hpre, hupd⟩ := updateFirst_decomp p f zs x h
      refine ⟨z :: pre, post, by simp [heq], ?_, by simp [updateFirst, hz, hupd]⟩
      intro y hy
      rcases List.mem_cons.mp hy with hy | hy
      · simpa [hy] using hz
      · exact hpre y hy

theorem updateFirst_find {α : Type} (p : α → Bool) (f : α → α)
    (hf : ∀ y, p y = true → p (f y) = true) :
    ∀ (l : List α) (x : α), l.find? p = some x →
      (updateFirst p f l).find? p = some (f x)
  | [], x, h => by simp at h
  | z :: zs, x, h => by
    by_cases hz : p z
    · rw [List.find?_cons_of_pos _ hz] at h
      rw [Option.some.inj h] at hz ⊢
      simp [updateFirst, hz, List.find?_cons_of_pos _ (hf x hz)]
    · rw [List.find?_cons_of_neg _ hz] at h
      simp [updateFirst, hz, List.find?_cons_of_neg _ hz,
        updateFirst_find p f hf zs x h]

theorem updateSongInGallery_not_registered (st : SongState) (now : Nat)
    (clipId status : String) (t a i m : Option String)
    (h : st.activeGenerations clipId = none) :
    updateSongInGallery st now clipId status t a i m = st := by
  unfold updateSongInGallery
  rw [h]

/-- C6: applying a complete status to a registered job whose song is in the
owner's gallery stamps `completedAt` with the update time and deletes the
clipId-to-user mapping, and every later `updateSongInGallery` call for that
clipId (a late or duplicate complete poll included) leaves the entire state
unchanged. -/
theorem song_complete_terminal (st : SongState) (now : Nat) (clipId u : String)
    (song : GeneratedSong) (t a i m : Option String)
    (hreg : st.activeGenerations clipId = some u)
    (hfound : (st.songGalleries u).find? (fun s => s.clipId == clipId) = some song) :
    ((updateSongInGallery st now clipId "complete" t a i m).songGalleries u).find?
        (fun s => s.clipId == clipId)
      = some (applySongFields song now "complete" t a i m)
    ∧ (applySongFields song now "complete" t a i m).completedAt = some now
    ∧ (updateSongInGallery st now clipId "complete" t a i m).activeGenerations clipId
      = none
    ∧ ∀ (now2 : Nat) (status2 : String) (t2 a2 i2 m2 : Option String),
        updateSongInGallery (updateSongInGallery st now clipId "complete" t a i m)
          now2 clipId status2 t2 a2 i2 m2
        = updateSongInGallery st now clipId "complete" t a i m := by
  have hclip : ∀ y : GeneratedSong, (y.clipId == clipId) = true →
      ((applySongFields y now "complete" t a i m).clipId == clipId) = true := by
    intro y hy
    simpa [applySongFields] using hy
  have hupd : (updateSongInGallery st now clipId "complete" t a i m).songGalleries u
      = updateFirst (fun s => s.clipId == clipId)
          (fun s => applySongFields s now "complete" t a i m) (st.songGalleries u) := by
    simp [updateSongInGallery, hreg, hfound]
  have hgen : (updateSongInGallery st now clipId "complete" t a i m).activeGenerations
      clipId = none := by
    simp [updateSongInGallery, hreg, hfound]
  refine ⟨?_, ?_, hgen, ?_⟩
  · rw [hupd]
    exact updateFirst_find _ _ hclip _ song hfound
  · simp [applySongFields]
  · intro now2 status2 t2 a2 i2 m2
    exact updateSongInGallery_not_registered _ now2 clipId status2 t2 a2 i2 m2 hgen

/-- C10: a status update on a registered job with a non-complete status
overwrites the status of the first matching song, overwrites the optional
fields only when the argument is present and truthy (non-empty), keeps the
prior value otherwise, never touches `completedAt`, the identity fields, any
other song of the same gallery, any other user's gallery, or the
clipId-to-user mappings. -/
theorem song_partial_update (st : SongState) (now : Nat) (clipId status u : String)
    (song : GeneratedSong) (t a i m : Option String)
    (hreg : st.activeGenerations clipId = some u)
    (hfound : (st.songGalleries u).find? (fun s => s.clipId == clipId) = some song)
    (hstat : status ≠ "complete") :
    (∃ pre post,
        st.songGalleries u = pre ++ song :: post
        ∧ (∀ y ∈ pre, (y.clipId == clipId) = false)
        ∧ (updateSongInGallery st now clipId status t a i m).songGalleries u
          = pre ++ applySongFields song now status t a i m :: post)
    ∧ (applySongFields song now status t a i m).status = status
    ∧ (jsTruthy t = false →
        (applySongFields song now status t a i m).title = song.title)
    ∧ (∀ v, t = some v → v.isEmpty = false →
        (applySongFields song now status t a i m).title = v)
    ∧ (jsTruthy a = false →
        (applySongFields song now status t a i m).audioUrl = song.audioUrl)
    ∧ (∀ v, a = some v → v.isEmpty = false →
        (applySongFields song now status t a i m).audioUrl = some v)
    ∧ (jsTruthy i = false →
        (applySongFields song now status t a i m).imageUrl = song.imageUrl)
    ∧ (∀ v, i = some v → v.isEmpty = false →
        (applySongFields song now status t a i m).imageUrl = some v)
    ∧ (jsTruthy m = false →
        (applySongFields song now status t a i m).metadata = song.metadata)
    ∧ (∀ v, m = some v → v.isEmpty = false →
        (applySongFields song now status t a i m).metadata = v)
    ∧ (applySongFields song now status t a i m).completedAt = song.completedAt
    ∧ (applySongFields song now status t a i m).id = song.id
    ∧ (applySongFields song now status t a i m).clipId = song.clipId
    ∧ (applySongFields song now status t a i m).createdAt = song.createdAt
    ∧ (applySongFields song now status t a i m).favorite = song.favorite
    ∧ (∀ v, v ≠ u →
        (updateSongInGallery st now clipId status t a i m).songGalleries v
          = st.songGalleries v)
    ∧ (∀ c, (updateSongInGallery st now clipId status t a i m).activeGenerations c
          = st.activeGenerations c) := by
  have hupd : (updateSongInGallery st now clipId status t a i m).songGalleries u
      = updateFirst (fun s => s.clipId == clipId)
          (fun s => applySongFields s now status t a i m) (st.songGalleries u) := by
    simp [updateSongInGallery, hreg, hfound]
  obtain ⟨pre, post, heq, hpre, hrw⟩ :=
    updateFirst_decomp (fun s => s.clipId == clipId)
      (fun s => applySongFields s now status t a i m) (st.songGalleries u) song hfound
  refine ⟨⟨pre, post, heq, hpre, by rw [hupd, hrw]⟩, ?_⟩
  refine ⟨by simp [applySongFields], ?_, ?_, ?_, ?_, ?_, ?_, ?_, ?_, ?_, ?_, ?_, ?_,
    ?_, ?_, ?_⟩
  · intro hft
    rcases t with _ | v
    · simp [applySongFields]
    · simp [jsTruthy] at hft
      simp [applySongFields, hft]
  · intro v hv hne
    subst hv
    simp [applySongFields, hne]
  · intro hft
    rcases a with _ | v
    · simp [applySongFields]
    · simp [jsTruthy] at hft
      simp [applySongFields, hft]
  · intro v hv hne
    subst hv
    simp [applySongFields, hne]
  · intro hft
    rcases i with _ | v
    · simp [applySongFields]
    · simp [jsTruthy] at hft
      simp [applySongFields, hft]
  · intro v hv hne
    subst hv
    simp [applySongFields, hne]
  · intro hft
    rcases m with _ | v
    · simp [applySongFields]
    · simp [jsTruthy] at hft
      simp [applySongFields, hft]
  · intro v hv hne
    subst hv
    simp [applySongFields, hne]
  · simp [applySongFields, hstat]
  · simp [applySongFields]
  · simp [applySongFields]
  · simp [applySongFields]
  · simp [applySongFields]
  · intro v hv
    simp [updateSongInGallery, hreg, hfound, hv]
  · intro c
    simp [updateSongInGallery, hreg, hfound, hstat]

/-- Witness for C6: the terminal-complete law evaluated on a concrete
one-song state. -/
theorem song_complete_terminal_witness :
    sampleSongState.activeGenerations "clip-1" = some "alice"
    ∧ (sampleSongState.songGalleries "alice").find? (fun s => s.clipId == "clip-1")
        = some sampleSong
    ∧ (updateSongInGallery sampleSongState 9 "clip-1" "complete"
        (some "My Song") (some "http://audio") none none).activeGenerations "clip-1"
        = none
    ∧ updateSongInGallery
        (updateSongInGallery sampleSongState 9 "clip-1" "complete"
          (some "My Song") (some "http://audio") none none)
        11 "clip-1" "complete" (some "Other") none none none
      = updateSongInGallery sampleSongState 9 "clip-1" "complete"
          (some "My Song") (some "http://audio") none none := by
  have h := song_complete_terminal sampleSongState 9 "clip-1" "alice" sampleSong
    (some "My Song") (some "http://audio") none none (by decide) (by decide)
  exact ⟨by decide, by decide, h.2.2.1, h.2.2.2 11 "complete" (some "Other") none none none⟩

/-- Witness for C10: the partial-update law evaluated on a concrete one-song
state with a streaming status, an empty title and a provided audio URL. -/
theorem song_partial_update_witness :
    sampleSongState.activeGenerations "clip-1" = some "alice"
    ∧ (sampleSongState.songGalleries "alice").find? (fun s => s.clipId == "clip-1")
        = some sampleSong
    ∧ "streaming" ≠ "complete"
    ∧ (applySongFields sampleSong 9 "streaming" (some "") (some "http://audio")
        none none).title = sampleSong.title
    ∧ (applySongFields sampleSong 9 "streaming" (some "") (some "http://audio")
        none none).audioUrl = some "http://audio"
    ∧ (applySongFields sampleSong 9 "streaming" (some "") (some "http://audio")
        none none).completedAt = sampleSong.completedAt
    ∧ (updateSongInGallery sampleSongState 9 "clip-1" "streaming" (some "")
        (some "http://audio") none none).songGalleries "bob" = [] := by
  have h := song_partial_update sampleSongState 9 "clip-1" "streaming" "alice"
    sampleSong (some "") (some "http://audio") none none (by decide) (by decide)
    (by decide)
  refine ⟨by decide, by decide, by decide, ?_, ?_, ?_, ?_⟩
  · exact h.2.2.1 (by decide)
  · exact h.2.2.2.2.2.1 "http://audio" rfl (by decide)
  · exact h.2.2.2.2.2.2.2.2.2.2.1
  · have hb := h.2.2.2.2.2.2.2.2.2.2.2.2.2.2.2.1 "bob" (by decide)
    rw [hb]
    decide

theorem stallRun_start_lb :
    ∀ (ts : List Nat) (st : SchedState) (s : Nat),
      s ∈ (stallRun st ts).2 → st.nextPhotoTime < s
  | [], st, s => by simp [stallRun]
  | t :: ts, st, s => by
    intro hs
    simp only [stallRun] at hs
    by_cases hfire : tickStartsCapture st t
    · simp only [tickStalled, if_pos hfire] at hs
      rcases List.mem_append.mp hs with hs | hs
      · simp at hs
        subst hs
        exact ((by simpa [tickStartsCapture] using hfire :
          st.streaming = true ∧ st.nextPhotoTime < s)).2
      · have hlt := stallRun_start_lb ts _ s hs
        simp at hlt
        have ht : st.streaming = true ∧ st.nextPhotoTime < t := by
          simpa [tickStartsCapture] using hfire
        have := ht.2
        omega
    · simp only [tickStalled, if_neg hfire] at hs
      simp at hs
      exact stallRun_start_lb ts st s hs

theorem stallRun_pairwise :
    ∀ (ts : List Nat) (st : SchedState),
      (stallRun st ts).2.Pairwise (fun a b => a + 30000 < b)
  | [], st => by simp [stallRun]
  | t :: ts, st => by
    simp only [stallRun]
    by_cases hfire : tickStartsCapture st t
    · simp only [tickStalled, if_pos hfire]
      refine List.pairwise_cons.mpr ⟨?_, stallRun_pairwise ts _⟩
      intro b hb
      have := stallRun_start_lb ts _ b hb
      simpa using this
    · simp only [tickStalled, if_neg hfire]
      simpa using stallRun_pairwise ts st

theorem pairwise_gap_window {l : List Nat} (w : Nat)
    (hp : l.Pairwise (fun a b => a + 30000 < b)) :
    (l.filter (fun s => decide (w ≤ s) && decide (s < w + 30000))).length ≤ 1 := by
  have hpf : (l.filter (fun s => decide (w ≤ s) && decide (s < w + 30000))).Pairwise
      (fun a b => a + 30000 < b) := List.Pairwise.filter _ hp
  rcases hfl : l.filter (fun s => decide (w ≤ s) && decide (s < w + 30000)) with
    _ | ⟨x, _ | ⟨y, rest⟩⟩
  · simp
  · simp
  · exfalso
    rw [hfl] at hpf
    have hxy : x + 30000 < y := (List.pairwise_cons.mp hpf).1 y (by simp)
    have hx : x ∈ l.filter (fun s => decide (w ≤ s) && decide (s < w + 30000)) := by
      rw [hfl]; simp
    have hy : y ∈ l.filter (fun s => decide (w ≤ s) && decide (s < w + 30000)) := by
      rw [hfl]; simp
    have hxp := List.of_mem_filter hx
    have hyp := List.of_mem_filter hy
    simp at hxp hyp
    omega

/-- C5: a 1-second scheduler tick starts at most one capture attempt, starts
one exactly when the user is streaming and `now` is strictly past
`nextPhotoTime` (installing the fallback deadline `now + 30000` first), a
non-due tick changes nothing, a completed capture resets the deadline to the
completion time, and while captures stall every 30-second window contains at
most one started attempt (consecutive starts are more than 30 seconds
apart). -/
theorem capture_scheduler_props :
    (∀ (st : SchedState) (now : Nat), (tickStalled st now).2.toList.length ≤ 1)
    ∧ (∀ (st : SchedState) (now s : Nat),
        (tickStalled st now).2 = some s →
          st.streaming = true ∧ st.nextPhotoTime < now ∧ s = now
          ∧ (tickStalled st now).1.nextPhotoTime = now + 30000)
    ∧ (∀ (st : SchedState) (now : Nat),
        (tickStalled st now).2 = none → (tickStalled st now).1 = st)
    ∧ (∀ (st : SchedState) (now : Nat),
        st.streaming = false ∨ now ≤ st.nextPhotoTime → (tickStalled st now).2 = none)
    ∧ (∀ (st : SchedState) (doneAt : Nat),
        (captureDone st doneAt).nextPhotoTime = doneAt
        ∧ (captureDone st doneAt).streaming = st.streaming)
    ∧ (∀ (st : SchedState) (ts : List Nat),
        (stallRun st ts).2.Pairwise (fun a b => a + 30000 < b))
    ∧ (∀ (st : SchedState) (ts : List Nat) (w : Nat),
        ((stallRun st ts).2.filter
          (fun s => decide (w ≤ s) && decide (s < w + 30000))).length ≤ 1) := by
  refine ⟨?_, ?_, ?_, ?_, ?_, ?_, ?_⟩
  · intro st now
    unfold tickStalled
    by_cases hfire : tickStartsCapture st now <;> simp [hfire]
  · intro st now s h
    unfold tickStalled at h ⊢
    by_cases hfire : tickStartsCapture st now
    · rw [if_pos hfire] at h ⊢
      simp at h
      subst h
      have := hfire
      simp [tickStartsCapture] at this
      exact ⟨this.1, this.2, rfl, rfl⟩
    · rw [if_neg hfire] at h
      simp at h
  · intro st now h
    unfold tickStalled at h ⊢
    by_cases hfire : tickStartsCapture st now
    · rw [if_pos hfire] at h
      simp at h
    · rw [if_neg hfire]
  · intro st now h
    unfold tickStalled
    have hfire : tickStartsCapture st now = false := by
      rcases h with h | h
      · simp [tickStartsCapture, h]
      · simp [tickStartsCapture]
        omega
    simp [hfire]
  · intro st doneAt
    exact ⟨rfl, rfl⟩
  · intro st ts
    exact stallRun_pairwise ts st
  · intro st ts w
    exact pairwise_gap_window w (stallRun_pairwise ts st)

/-- Witness for C5: the scheduler laws evaluated on a concrete armed state
ticked at 0, 1000, ..., 5000 with every capture stalling: exactly one start
(at 1000, with deadline 0 at start) and the rest suppressed by the fallback
deadline. -/
theorem capture_scheduler_props_witness :
    (tickStalled ⟨true, 0⟩ 1000).2 = some 1000
    ∧ ((⟨true, 0⟩ : SchedState).streaming = true ∧ (0 : Nat) < 1000 ∧ (1000 : Nat) = 1000
        ∧ (tickStalled ⟨true, 0⟩ 1000).1.nextPhotoTime = 1000 + 30000)
    ∧ (tickStalled ⟨false, 0⟩ 1000).2 = none
    ∧ (captureDone ⟨true, 31000⟩ 1500).nextPhotoTime = 1500
    ∧ (stallRun ⟨true, 0⟩ [0, 1000, 2000, 3000, 4000, 5000]).2 = [1000]
    ∧ ((stallRun ⟨true, 0⟩ [0, 1000, 2000, 3000, 4000, 5000]).2.filter
        (fun s => decide (500 ≤ s) && decide (s < 500 + 30000))).length ≤ 1 := by
  refine ⟨by decide, ?_, ?_, ?_, by decide, ?_⟩
  · exact capture_scheduler_props.2.1 ⟨true, 0⟩ 1000 1000 (by decide)
  · exact capture_scheduler_props.2.2.2.1 ⟨false, 0⟩ 1000 (Or.inl rfl)
  · exact (capture_scheduler_props.2.2.2.2.1 ⟨true, 31000⟩ 1500).1
  · exact capture_scheduler_props.2.2.2.2.2.2 ⟨true, 0⟩ [0, 1000, 2000, 3000, 4000, 5000] 500

/-- Counterexample to C8: on the concrete sample photo with the Anthropic
client not configured, the caption pipeline still sets `captionGenerated`
to true, contradicting the claim that the flag is never set in that case. -/
theorem caption_skip_counterexample :
    (generateCaptionAsync false none (mkStoredPhoto samplePhoto "alice")).captionGenerated
      = true := by decide

/-- C8 (amended): when the Anthropic client is not configured the API call is
skipped (`generatePhotoCaption` returns null for every API outcome), the
photo's caption stays unset and all other photo fields are untouched, but
`captionGenerated` is nevertheless set to true by the asynchronous pipeline. -/
theorem caption_skip_amended (apiResult : Option String) (p : StoredPhoto) :
    generatePhotoCaption false apiResult = none
    ∧ (generateCaptionAsync false apiResult p).caption = none
    ∧ (generateCaptionAsync false apiResult p).captionGenerated = true
    ∧ (generateCaptionAsync false apiResult p).requestId = p.requestId
    ∧ (generateCaptionAsync false apiResult p).buffer = p.buffer
    ∧ (generateCaptionAsync false apiResult p).timestamp = p.timestamp
    ∧ (generateCaptionAsync false apiResult p).userId = p.userId
    ∧ (generateCaptionAsync false apiResult p).mimeType = p.mimeType
    ∧ (generateCaptionAsync false apiResult p).filename = p.filename
    ∧ (generateCaptionAsync false apiResult p).size = p.size
    ∧ (generateCaptionAsync false apiResult p).selected = p.selected := by
  refine ⟨rfl, ?_, rfl, rfl, rfl, rfl, rfl, rfl, rfl, rfl, rfl⟩
  simp [generateCaptionAsync, generatePhotoCaption]

/-- C9: a non-final event leaves the history untouched and produces no trace;
a final event appends exactly one entry to the speaking user's history (and
nobody else's), with activation flag equal to "some phrase list matched", and
the trace records that entry first — strictly before any dispatched action —
with exactly one record item in the whole trace. -/
theorem transcription_recorded_before_dispatch
    (hist : String → List TranscriptionEntry) (userId : String)
    (ev : TranscriptionEvent) (now : Nat) (rand : String) :
    (ev.isFinal = false →
      handleTranscription hist userId ev now rand = (hist, []))
    ∧ (ev.isFinal = true →
      (let anyD := photoActivationDetected (normalizeText ev.text)
        || shoppingActivationDetected (normalizeText ev.text)
        || calendarActivationDetected (normalizeText ev.text)
        || emailActivationDetected (normalizeText ev.text)
       let entry := mkTranscriptionEntry userId ev.text anyD now rand
       let res := handleTranscription hist userId ev now rand
       res.1 userId = pushCap 100 (hist userId) entry
       ∧ entry.isActivationPhrase = anyD
       ∧ (∀ v, v ≠ userId → res.1 v = hist v)
       ∧ res.2.head? = some (TraceItem.record entry)
       ∧ (res.2.filter TraceItem.isRecord).length = 1
       ∧ ∀ item ∈ res.2.tail, item.isRecord = false)) := by
  constructor
  · intro hnf
    simp [handleTranscription, hnf]
  · intro hf
    simp only [handleTranscription, hf]
    refine ⟨by simp [addTranscriptionToHistory], rfl, ?_, rfl, ?_, ?_⟩
    · intro v hv
      simp [addTranscriptionToHistory, hv]
    · by_cases hp : photoActivationDetected (normalizeText ev.text) <;>
        by_cases hs : shoppingActivationDetected (normalizeText ev.text) <;>
          by_cases hc : calendarActivationDetected (normalizeText ev.text) <;>
            by_cases he : emailActivationDetected (normalizeText ev.text) <;>
              simp [hp, hs, hc, he, TraceItem.isRecord]
    · intro item hitem
      by_cases hp : photoActivationDetected (normalizeText ev.text) <;>
        by_cases hs : shoppingActivationDetected (normalizeText ev.text) <;>
          by_cases hc : calendarActivationDetected (normalizeText ev.text) <;>
            by_cases he : emailActivationDetected (normalizeText ev.text) <;>
              simp [hp, hs, hc, he] at hitem <;>
                first
                  | exact absurd hitem (by simp)
                  | (subst hitem; rfl)

/-- Witness for C9: the handler evaluated on a concrete final calendar
utterance and on a concrete non-final event. -/
theorem transcription_recorded_before_dispatch_witness :
    ((⟨"schedule a meeting", false⟩ : TranscriptionEvent).isFinal = false →
      handleTranscription (fun _ => []) "alice" ⟨"schedule a meeting", false⟩ 7 "r"
        = (fun _ => [], []))
    ∧ handleTranscription (fun _ => []) "alice" ⟨"schedule a meeting", false⟩ 7 "r"
        = (fun _ => [], [])
    ∧ (handleTranscription (fun _ => []) "alice" ⟨"schedule a meeting", true⟩ 7 "r").2
        = [TraceItem.record (mkTranscriptionEntry "alice" "schedule a meeting" true 7 "r"),
           TraceItem.dispatch DispatchAction.calendarRequest] := by
  have h := transcription_recorded_before_dispatch (fun _ => []) "alice"
    ⟨"schedule a meeting", false⟩ 7 "r"
  refine ⟨h.1, h.1 rfl, ?_⟩
  decide

/-- Counterexample to C3: starting from a state where both façades hold the
same token set for alice, a successful refresh performed by the calendar
façade succeeds but leaves the gmail façade holding the old set, so the two
façades do not observe the same (refreshed) token set afterwards. -/
theorem refresh_not_shared_counterexample :
    (calRefreshUserToken sampleVault "alice" (some sampleTokenB)).1 = true
    ∧ (calRefreshUserToken sampleVault "alice" (some sampleTokenB)).2.calTokens "alice"
        = some sampleTokenB
    ∧ (calRefreshUserToken sampleVault "alice" (some sampleTokenB)).2.gmailTokens "alice"
        = some sampleTokenA
    ∧ ¬ ((calRefreshUserToken sampleVault "alice" (some sampleTokenB)).2.calTokens "alice"
        = (calRefreshUserToken sampleVault "alice" (some sampleTokenB)).2.gmailTokens
            "alice") := by
  refine ⟨by decide, by decide, by decide, by decide⟩

/-- C3 (amended): each façade keeps at most one token set per user (a single
optional map slot, so storing replaces rather than accumulates), and a
successful refresh performed by one façade replaces only that façade's entry
for that user: every entry of the other façade's map, and every other user's
entry of the same map, is unchanged — after a refresh the two façades may
therefore hold different token sets for the user. -/
theorem refresh_updates_own_facade_only (st : VaultState) (userId : String)
    (tokens credentials : TokenSet)
    (hcal : st.calTokens userId = some tokens)
    (hrt : jsTruthy tokens.refreshToken = true) :
    ((calRefreshUserToken st userId (some credentials)).1 = true
      ∧ (calRefreshUserToken st userId (some credentials)).2.calTokens userId
          = some credentials
      ∧ (∀ v, v ≠ userId →
          (calRefreshUserToken st userId (some credentials)).2.calTokens v
            = st.calTokens v)
      ∧ (∀ v, (calRefreshUserToken st userId (some credentials)).2.gmailTokens v
          = st.gmailTokens v))
    ∧ (∀ (tg : TokenSet), st.gmailTokens userId = some tg →
        jsTruthy tg.refreshToken = true →
        ((gmailRefreshUserToken st userId (some credentials)).1 = true
          ∧ (gmailRefreshUserToken st userId (some credentials)).2.gmailTokens userId
              = some credentials
          ∧ (∀ v, v ≠ userId →
              (gmailRefreshUserToken st userId (some credentials)).2.gmailTokens v
                = st.gmailTokens v)
          ∧ (∀ v, (gmailRefreshUserToken st userId (some credentials)).2.calTokens v
              = st.calTokens v))) := by
  constructor
  · refine ⟨?_, ?_, ?_, ?_⟩
    · simp [calRefreshUserToken, hcal, hrt]
    · simp [calRefreshUserToken, hcal, hrt]
    · intro v hv
      simp [calRefreshUserToken, hcal, hrt, hv]
    · intro v
      simp [calRefreshUserToken, hcal, hrt]
  · intro tg hg hgrt
    refine ⟨?_, ?_, ?_, ?_⟩
    · simp [gmailRefreshUserToken, hg, hgrt]
    · simp [gmailRefreshUserToken, hg, hgrt]
    · intro v hv
      simp [gmailRefreshUserToken, hg, hgrt, hv]
    · intro v
      simp [gmailRefreshUserToken, hg, hgrt]

/-- Witness for the amended C3 on the concrete sample vault. -/
theorem refresh_updates_own_facade_only_witness :
    sampleVault.calTokens "alice" = some sampleTokenA
    ∧ jsTruthy sampleTokenA.refreshToken = true
    ∧ (calRefreshUserToken sampleVault "alice" (some sampleTokenB)).2.gmailTokens "bob"
        = sampleVault.gmailTokens "bob" := by
  have h := refresh_updates_own_facade_only sampleVault "alice" sampleTokenA
    sampleTokenB (by decide) (by decide)
  exact ⟨by decide, by decide, h.1.2.2.2 "bob"⟩

/-- C7: a successful `handleAuthCallback` stores the exchanged token set for
the user in the calendar map, propagates the identical set to the gmail map
in the same operation, makes both façades report the user authorized (the
provider returns a non-empty access token on a successful exchange), leaves
every other user's entries unchanged, and returns true; when the client is
not configured or the exchange fails it returns false and changes nothing. -/
theorem auth_callback_propagates (st : VaultState) (userId : String)
    (tokens : TokenSet) (hacc : jsTruthy tokens.accessToken = true) :
    ((handleAuthCallback st true (some tokens) userId).1 = true
      ∧ (handleAuthCallback st true (some tokens) userId).2.calTokens userId
          = some tokens
      ∧ (handleAuthCallback st true (some tokens) userId).2.gmailTokens userId
          = some tokens
      ∧ calIsUserAuthorized (handleAuthCallback st true (some tokens) userId).2 userId
          = true
      ∧ gmailIsUserAuthorized (handleAuthCallback st true (some tokens) userId).2 userId
          = true
      ∧ (∀ v, v ≠ userId →
          (handleAuthCallback st true (some tokens) userId).2.calTokens v
            = st.calTokens v
          ∧ (handleAuthCallback st true (some tokens) userId).2.gmailTokens v
            = st.gmailTokens v))
    ∧ handleAuthCallback st true none userId = (false, st)
    ∧ (∀ (res : Option TokenSet),
        handleAuthCallback st false res userId = (false, st)) := by
  refine ⟨⟨rfl, by simp [handleAuthCallback], by simp [handleAuthCallback], ?_, ?_, ?_⟩,
    rfl, fun res => rfl⟩
  · simp [calIsUserAuthorized, handleAuthCallback, hacc]
  · simp [gmailIsUserAuthorized, handleAuthCallback, hacc]
  · intro v hv
    constructor <;> simp [handleAuthCallback, hv]

/-- Witness for C7: the callback evaluated on the concrete empty vault and
the sample token set. -/
theorem auth_callback_propagates_witness :
    jsTruthy sampleTokenA.accessToken = true
    ∧ (handleAuthCallback ⟨fun _ => none, fun _ => none⟩ true (some sampleTokenA)
        "alice").1 = true
    ∧ calIsUserAuthorized
        (handleAuthCallback ⟨fun _ => none, fun _ => none⟩ true (some sampleTokenA)
          "alice").2 "alice" = true
    ∧ gmailIsUserAuthorized
        (handleAuthCallback ⟨fun _ => none, fun _ => none⟩ true (some sampleTokenA)
          "alice").2 "alice" = true := by
  have h := auth_callback_propagates ⟨fun _ => none, fun _ => none⟩ "alice"
    sampleTokenA (by decide)
  exact ⟨by decide, h.1.1, h.1.2.2.2.1, h.1.2.2.2.2.1⟩

/-- Counterexample to C2: a `getEvents` execution whose first attempt fails
with a 401 and whose stored refresh token yields a successful refresh, yet
the original call is retried twice with two refreshes, because the retried
call itself fails with another 401 and the code recurses without a retry
bound — refuting "retried exactly once and exactly one refresh occurs". -/
theorem auth_retry_counterexample :
    getEventsRetry
        [(CallOutcome.authExpired, true), (CallOutcome.authExpired, true),
         (CallOutcome.ok ["event"], true)]
      = (["event"], 3, 2)
    ∧ ¬ (getEventsRetry
          [(CallOutcome.authExpired, true), (CallOutcome.authExpired, true),
           (CallOutcome.ok ["event"], true)]).2
        = (2, 1) := by
  refine ⟨by decide, by decide⟩

/-- C2 (amended): after a 401, a successful refresh leads to exactly one
retry and exactly one refresh provided the retried attempt does not itself
fail with a 401 (a successful retry returns its value, a non-401 failure
returns the empty result); when the retried attempt fails with a 401 again,
the refresh-and-retry loop repeats (attempt and refresh counters both grow by
one per round); and a failed refresh (no stored refresh token or provider
rejection) ends the call with the empty result and zero retries. Stated for
the common shape `withAuthRetry` and instantiated by all four façade calls. -/
theorem auth_retry_amended {α : Type} (emptyRes v : α) (b b2 : Bool)
    (rest : List (CallOutcome α × Bool)) :
    (withAuthRetry emptyRes ((CallOutcome.authExpired, true) :: (CallOutcome.ok v, b) :: rest)
      = (v, 2, 1))
    ∧ (withAuthRetry emptyRes
        ((CallOutcome.authExpired, true) :: (CallOutcome.otherFailure, b) :: rest)
      = (emptyRes, 2, 1))
    ∧ (withAuthRetry emptyRes ((CallOutcome.authExpired, false) :: rest)
      = (emptyRes, 1, 1))
    ∧ (withAuthRetry emptyRes ((CallOutcome.authExpired, true) :: rest)
      = ((withAuthRetry emptyRes rest).1,
         (withAuthRetry emptyRes rest).2.1 + 1, (withAuthRetry emptyRes rest).2.2 + 1))
    ∧ (withAuthRetry emptyRes ((CallOutcome.ok v, b2) :: rest) = (v, 1, 0))
    ∧ (withAuthRetry emptyRes ((CallOutcome.otherFailure, b2) :: rest)
      = (emptyRes, 1, 0))
    ∧ (∀ (atts : List (CallOutcome (List String) × Bool)),
        getEventsRetry atts = withAuthRetry [] atts
        ∧ getRecentEmailsRetry atts = withAuthRetry [] atts)
    ∧ (∀ (atts : List (CallOutcome (Option String) × Bool)),
        createEventRetry atts = withAuthRetry none atts)
    ∧ (∀ (atts : List (CallOutcome Bool × Bool)),
        sendEmailRetry atts = withAuthRetry false atts) := by
  refine ⟨rfl, rfl, rfl, rfl, rfl, rfl, fun atts => ⟨rfl, rfl⟩, fun atts => rfl,
    fun atts => rfl⟩

/-- C4: the intent classifier is a pure total function of the lower-cased,
trimmed utterance; each category matches iff some phrase of its fixed list is
a substring of the text; the result is always exactly one of
photo / shopping / calendar / email / none; and on multiple matches the
earliest-evaluated category in the fixed order photo > shopping > calendar >
email wins (a category is returned iff it matches and no earlier one does). -/
theorem intent_classifier_total_ordered (text spokenText : String) :
    (classifyUtterance text = classifyNormalized (normalizeText text))
    ∧ (photoActivationDetected spokenText
        = PHOTO_ACTIVATION_PHRASES.any (fun p => strIncludes spokenText p))
    ∧ (shoppingActivationDetected spokenText
        = SHOPPING_ACTIVATION_PHRASES.any (fun p => strIncludes spokenText p))
    ∧ (calendarActivationDetected spokenText
        = CALENDAR_ACTIVATION_PHRASES.any (fun p => strIncludes spokenText p))
    ∧ (emailActivationDetected spokenText
        = EMAIL_ACTIVATION_PHRASES.any (fun p => strIncludes spokenText p))
    ∧ (classifyNormalized spokenText = Intent.photo
        ↔ photoActivationDetected spokenText = true)
    ∧ (classifyNormalized spokenText = Intent.shopping
        ↔ photoActivationDetected spokenText = false
          ∧ shoppingActivationDetected spokenText = true)
    ∧ (classifyNormalized spokenText = Intent.calendar
        ↔ photoActivationDetected spokenText = false
          ∧ shoppingActivationDetected spokenText = false
          ∧ calendarActivationDetected spokenText = true)
    ∧ (classifyNormalized spokenText = Intent.email
        ↔ photoActivationDetected spokenText = false
          ∧ shoppingActivationDetected spokenText = false
          ∧ calendarActivationDetected spokenText = false
          ∧ emailActivationDetected spokenText = true)
    ∧ (classifyNormalized spokenText = Intent.noIntent
        ↔ photoActivationDetected spokenText = false
          ∧ shoppingActivationDetected spokenText = false
          ∧ calendarActivationDetected spokenText = false
          ∧ emailActivationDetected spokenText = false) := by
  refine ⟨rfl, rfl, rfl, rfl, rfl, ?_⟩
  unfold classifyNormalized
  rcases hp : photoActivationDetected spokenText with _ | _ <;>
    rcases hs : shoppingActivationDetected spokenText with _ | _ <;>
      rcases hc : calendarActivationDetected spokenText with _ | _ <;>
        rcases he : emailActivationDetected spokenText with _ | _ <;>
          simp [hp, hs, hc, he]

end Jarvis
